import Mathlib

/-!
Shallow embedding of the MAHORAGA edge worker (entry module: CORS resolver,
authorization guard, router/dispatcher) and of the two revisions of the Z.AI
completion-provider adapter, together with theorems settling the frozen
claims about the natural-language specification.

Strings are modelled as Lean `String`s (sequences of characters); the handful
of JavaScript string/URL/Headers builtins the source uses are modelled by
small explicit functions, each documented with the builtin it stands for.
-/

namespace Mahoraga

/-- Models JavaScript `s.startsWith(pat)`, on lists of characters
(first argument: the string, second: the pattern). -/
def startsWithL : List Char → List Char → Bool
  | _, [] => true
  | [], _ :: _ => false
  | c :: cs, p :: ps => c == p && startsWithL cs ps

/-- Models JavaScript `s.startsWith(pat)`. -/
def strStartsWith (s pat : String) : Bool :=
  startsWithL s.data pat.data

/-- Models JavaScript `s.slice(n)` for `0 ≤ n`: drop the first `n` characters. -/
def strDrop (s : String) (n : Nat) : String :=
  String.mk (s.data.drop n)

/-- Models JavaScript `s.toLowerCase()` for ASCII content: lower-case every
character. -/
def strToLower (s : String) : String :=
  String.mk (s.data.map Char.toLower)

theorem startsWithL_append (p t : List Char) : startsWithL (p ++ t) p = true := by
  induction p with
  | nil => cases t <;> rfl
  | cons c cs ih => simp [startsWithL, ih]

theorem eq_append_drop_of_startsWithL (s p : List Char) (h : startsWithL s p = true) :
    s = p ++ s.drop p.length := by
  induction p generalizing s with
  | nil => simp
  | cons c cs ih =>
    cases s with
    | nil => simp [startsWithL] at h
    | cons d ds =>
      simp only [startsWithL, Bool.and_eq_true, beq_iff_eq] at h
      obtain ⟨rfl, h2⟩ := h
      simpa using ih ds h2

/-! ## Authorization guard (worker entry module) -/

/-- Instrumented embedding of the loop of `constantTimeCompare`:
`for (let i = 0; i < a.length; i++) mismatch |= a.charCodeAt(i) ^ b.charCodeAt(i)`.
The first component counts the iterations actually executed; the second is the
accumulated `mismatch` value. -/
def ctcScan (a b : String) : Nat × Nat :=
  (a.data.zip b.data).foldl
    (fun st p => (st.1 + 1, st.2 ||| (p.1.toNat ^^^ p.2.toNat))) (0, 0)

/-- `constantTimeCompare` from the worker entry module: reject on unequal
lengths, otherwise OR-accumulate the XOR of every character pair and accept
iff the accumulator is zero. -/
def constantTimeCompare (a b : String) : Bool :=
  if a.length ≠ b.length then false
  else (ctcScan a b).2 == 0

/-- `isAuthorized` from the worker entry module. `authHeader` models
`request.headers.get("Authorization")` and `token` models
`env.MAHORAGA_API_TOKEN`; the JS guard `if (!token)` also fails for a
configured empty string, which is falsy. -/
def isAuthorized (authHeader token : Option String) : Bool :=
  match token with
  | none => false
  | some t =>
    if t = "" then false
    else
      match authHeader with
      | none => false
      | some h =>
        if strStartsWith h "Bearer " then constantTimeCompare (strDrop h 7) t
        else false

theorem nat_lor_eq_zero {a b : Nat} : a ||| b = 0 ↔ a = 0 ∧ b = 0 := by
  constructor
  · intro h
    constructor <;>
    · apply Nat.eq_of_testBit_eq
      intro i
      have hb := congrArg (fun n => Nat.testBit n i) h
      simp only [Nat.testBit_lor, Nat.zero_testBit, Bool.or_eq_false_iff] at hb
      simp [hb.1, hb.2, Nat.zero_testBit]
  · rintro ⟨rfl, rfl⟩
    rfl

theorem charToNat_inj {c d : Char} (h : c.toNat = d.toNat) : c = d := by
  have := congrArg Char.ofNat h
  rwa [Char.ofNat_toNat, Char.ofNat_toNat] at this

theorem ctcScan_steps (l : List (Char × Char)) (n m : Nat) :
    (l.foldl (fun st p => (st.1 + 1, st.2 ||| (p.1.toNat ^^^ p.2.toNat))) (n, m)).1 =
      n + l.length := by
  induction l generalizing n m with
  | nil => simp
  | cons p l ih => simp [List.foldl_cons, ih]; omega

theorem ctcScan_mismatch (l : List (Char × Char)) (m : Nat) :
    ((l.foldl (fun st p => (st.1 + 1, st.2 ||| (p.1.toNat ^^^ p.2.toNat))) (0, m)).2 = 0 ↔
      m = 0 ∧ ∀ p ∈ l, p.1 = p.2) := by
  induction l generalizing m with
  | nil => simp
  | cons p l ih =>
    simp only [List.foldl_cons, List.mem_cons]
    constructor
    · intro h
      have hgen : ∀ (n : Nat),
          ((l.foldl (fun st p => (st.1 + 1, st.2 ||| (p.1.toNat ^^^ p.2.toNat))) (n, m ||| (p.1.toNat ^^^ p.2.toNat))).2 = 0 ↔
            m ||| (p.1.toNat ^^^ p.2.toNat) = 0 ∧ ∀ q ∈ l, q.1 = q.2) := by
        intro n
        have hswap : ∀ (n₁ n₂ m₀ : Nat) (l₀ : List (Char × Char)),
            ((l₀.foldl (fun st p => (st.1 + 1, st.2 ||| (p.1.toNat ^^^ p.2.toNat))) (n₁, m₀)).2 =
             (l₀.foldl (fun st p => (st.1 + 1, st.2 ||| (p.1.toNat ^^^ p.2.toNat))) (n₂, m₀)).2) := by
          intro n₁ n₂ m₀ l₀
          induction l₀ generalizing n₁ n₂ m₀ with
          | nil => rfl
          | cons q l₀ ih₀ => simpa [List.foldl_cons] using ih₀ (n₁ + 1) (n₂ + 1) _
        rw [hswap n 0]
        exact ih (m ||| (p.1.toNat ^^^ p.2.toNat))
      have h0 := (hgen 1).mp h
      have hz := nat_lor_eq_zero.mp h0.1
      have hpq : p.1 = p.2 := charToNat_inj (Nat.xor_eq_zero.mp hz.2)
      exact ⟨hz.1, fun q hq => hq.elim (fun he => he ▸ hpq) (h0.2 q)⟩
    · rintro ⟨rfl, hall⟩
      have hpq : p.1.toNat ^^^ p.2.toNat = 0 := Nat.xor_eq_zero.mpr (by rw [hall p (Or.inl rfl)])
      have : (0 : Nat) ||| (p.1.toNat ^^^ p.2.toNat) = 0 := by simp [hpq]
      rw [this] at *
      have hswap : ∀ (n₁ n₂ m₀ : Nat) (l₀ : List (Char × Char)),
          ((l₀.foldl (fun st p => (st.1 + 1, st.2 ||| (p.1.toNat ^^^ p.2.toNat))) (n₁, m₀)).2 =
           (l₀.foldl (fun st p => (st.1 + 1, st.2 ||| (p.1.toNat ^^^ p.2.toNat))) (n₂, m₀)).2) := by
        intro n₁ n₂ m₀ l₀
        induction l₀ generalizing n₁ n₂ m₀ with
        | nil => rfl
        | cons q l₀ ih₀ => simpa [List.foldl_cons] using ih₀ (n₁ + 1) (n₂ + 1) _
      rw [hswap 1 0]
      exact ih 0 |>.mpr ⟨rfl, fun q hq => hall q (Or.inr hq)⟩

theorem zip_pointwise_eq {a b : List Char} (h : a.length = b.length) :
    ((∀ p ∈ a.zip b, p.1 = p.2) ↔ a = b) := by
  induction a generalizing b with
  | nil => cases b with
    | nil => simp
    | cons d ds => simp at h
  | cons c cs ih =>
    cases b with
    | nil => simp at h
    | cons d ds =>
      simp only [List.length_cons, Nat.succ_inj] at h
      simp only [List.zip_cons_cons, List.mem_cons, List.cons.injEq]
      constructor
      · intro hall
        exact ⟨hall (c, d) (Or.inl rfl), (ih h).mp fun p hp => hall p (Or.inr hp)⟩
      · rintro ⟨rfl, rfl⟩
        intro p hp
        rcases hp with he | hm
        · rw [he]
        · exact ((ih h).mpr rfl) p hm

theorem constantTimeCompare_iff (a b : String) (h : a.length = b.length) :
    (constantTimeCompare a b = true ↔ a = b) := by
  have hlen : a.data.length = b.data.length := h
  unfold constantTimeCompare
  rw [if_neg (by simp [h])]
  simp only [ctcScan, beq_iff_eq]
  rw [ctcScan_mismatch]
  constructor
  · intro hz
    exact String.ext ((zip_pointwise_eq hlen).mp hz.2)
  · intro he
    exact ⟨rfl, (zip_pointwise_eq hlen).mpr (by rw [he])⟩

theorem constantTimeCompare_length_ne (a b : String) (h : a.length ≠ b.length) :
    constantTimeCompare a b = false := by
  simp [constantTimeCompare, h]

theorem ctcScan_length (a b : String) (h : a.length = b.length) :
    (ctcScan a b).1 = a.length := by
  have : (ctcScan a b).1 = 0 + (a.data.zip b.data).length := ctcScan_steps _ 0 0
  rw [this, Nat.zero_add, List.length_zip]
  have hlen : a.data.length = b.data.length := h
  show min a.data.length b.data.length = a.data.length
  rw [hlen, Nat.min_self]

/-! ## CORS policy resolver (worker entry module) -/

/-- Models JavaScript `s.split(",")` on characters: cut at every comma;
the empty string yields `[""]`. -/
def splitCommaAux : List Char → List Char → List String
  | cur, [] => [String.mk cur.reverse]
  | cur, c :: rest =>
    if c = ',' then String.mk cur.reverse :: splitCommaAux [] rest
    else splitCommaAux (c :: cur) rest

/-- Models JavaScript `s.split(",")`. -/
def splitComma (s : String) : List String := splitCommaAux [] s.data

/-- Models JavaScript `s.trim()`: strip whitespace from both ends. -/
def strTrim (s : String) : String :=
  String.mk (((s.data.dropWhile Char.isWhitespace).reverse.dropWhile Char.isWhitespace).reverse)

/-- The four-header allow map returned by `getCorsHeaders` for an allowed
origin: the `Access-Control-Allow-Origin` value echoes the request origin. -/
def corsAllowHeaders (origin : String) : List (String × String) :=
  [("Access-Control-Allow-Origin", origin),
   ("Access-Control-Allow-Methods", "GET, POST, PUT, DELETE, OPTIONS"),
   ("Access-Control-Allow-Headers", "Content-Type, Authorization"),
   ("Access-Control-Max-Age", "86400")]

/-- The comma-split, trimmed allow-list:
`env.CORS_ALLOWED_ORIGINS?.split(",").map((o) => o.trim()) || []`.
An undefined configuration yields the empty list; a defined one (even `""`)
is split on commas, each token trimmed (an array is always truthy in JS). -/
def allowListOf (cfg : Option String) : List String :=
  match cfg with
  | none => []
  | some c => (splitComma c).map strTrim

/-- `getCorsHeaders` from the worker entry module. `origin` models
`request.headers.get("Origin")` (the `|| ""` maps an absent header to the
empty string) and `cfg` models `env.CORS_ALLOWED_ORIGINS`. -/
def getCorsHeaders (origin : Option String) (cfg : Option String) :
    List (String × String) :=
  let o := origin.getD ""
  let allowedOrigins := allowListOf cfg
  let isLocalhost :=
    strStartsWith o "http://localhost:" || strStartsWith o "http://127.0.0.1:"
  if isLocalhost || allowedOrigins.contains o || allowedOrigins.contains "*" then
    corsAllowHeaders o
  else []

/-- Following the claim's words (not the source): the origin matches the
localhost/loopback pattern with any port, the scheme-and-host literal followed
by a port, i.e. a nonempty string of digits. -/
def isLocalhostWithPort (o : String) : Bool :=
  (strStartsWith o "http://localhost:" &&
    (let p := strDrop o 17; !p.data.isEmpty && p.data.all Char.isDigit))
  || (strStartsWith o "http://127.0.0.1:" &&
    (let p := strDrop o 17; !p.data.isEmpty && p.data.all Char.isDigit))

/-- Following the claim's words (not the source): the CORS decision with the
localhost/loopback check read as a full pattern match with a numeric port. -/
def claimCorsHeaders (origin : Option String) (cfg : Option String) :
    List (String × String) :=
  let o := origin.getD ""
  let allowedOrigins := allowListOf cfg
  if isLocalhostWithPort o || allowedOrigins.contains o || allowedOrigins.contains "*" then
    corsAllowHeaders o
  else []

/-! ## Headers model and router (worker entry module) -/

/-- Models WHATWG `headers.set(k, v)` on an association list: header names are
case-insensitive; an existing entry's value is replaced in place, otherwise
the pair is appended. -/
def hset (hs : List (String × String)) (k v : String) : List (String × String) :=
  if hs.any (fun p => strToLower p.1 == strToLower k) then
    hs.map (fun p => if strToLower p.1 == strToLower k then (p.1, v) else p)
  else hs ++ [(k, v)]

/-- Models WHATWG `headers.get(k)` (case-insensitive name lookup). -/
def hlookup (hs : List (String × String)) (k : String) : Option String :=
  (hs.find? (fun p => strToLower p.1 == strToLower k)).map (fun p => p.2)

/-- The header-merge loop of both proxy branches:
`const newHeaders = new Headers(response.headers);
 for (const [key, value] of Object.entries(corsHeaders)) newHeaders.set(key, value);`. -/
def overlayHeaders (hs cors : List (String × String)) : List (String × String) :=
  cors.foldl (fun acc kv => hset acc kv.1 kv.2) hs

/-- An inbound request as the router observes it: `origin` and `authorization`
model `request.headers.get("Origin")` / `request.headers.get("Authorization")`,
`path` and `search` model `url.pathname` / `url.search`. -/
structure Req where
  method : String
  path : String
  search : String
  origin : Option String
  authorization : Option String
  body : Option String
deriving DecidableEq

/-- A response: status, status text, headers and an optional body. -/
structure Resp where
  status : Nat
  statusText : String
  headers : List (String × String)
  body : Option String
deriving DecidableEq

/-- The derived sub-request forwarded to the session-harness actor. -/
structure ActorReq where
  method : String
  path : String
  search : String
  origin : Option String
  authorization : Option String
  body : Option String
deriving DecidableEq

/-- Models JavaScript `s.replace(pat, "")` for a plain-string pattern:
remove the first occurrence of `pat`, if any. -/
def replaceFirstAux (pat : List Char) : List Char → List Char
  | [] => []
  | c :: rest =>
    if startsWithL (c :: rest) pat then (c :: rest).drop pat.length
    else c :: replaceFirstAux pat rest

/-- Models JavaScript `s.replace(pat, "")` (first occurrence only). -/
def jsReplaceFirst (s pat : String) : String :=
  if pat.data.isEmpty then s else String.mk (replaceFirstAux pat.data s.data)

/-- Models `(new URL(p, "http://harness")).pathname` for the relative
references this router produces (plain path strings without dot-segments or
characters needing escape): an absolute reference keeps its path, any other is
resolved against the base path `/`. -/
def urlResolvePath (p : String) : String :=
  if strStartsWith p "/" then p else "/" ++ p

/-- The dispatch reshaping shared by the `/api` and `/agent` branches:
`const agentPath = url.pathname.replace(pre, "") || "/status";
 const agentUrl = new URL(agentPath, "http://harness");
 agentUrl.search = url.search;`
followed by a `new Request(agentUrl.toString(), { method, headers, body })`. -/
def dispatchReq (req : Req) (pre : String) : ActorReq :=
  let stripped := jsReplaceFirst req.path pre
  let agentPath := if stripped = "" then "/status" else stripped
  { method := req.method, path := urlResolvePath agentPath, search := req.search,
    origin := req.origin, authorization := req.authorization, body := req.body }

/-- The response rebuilding of both proxy branches: keep status, status text
and body, overlay the resolved CORS headers onto the actor's headers. -/
def proxyResponse (cors : List (String × String)) (resp : Resp) : Resp :=
  { status := resp.status, statusText := resp.statusText,
    headers := overlayHeaders resp.headers cors, body := resp.body }

/-- The message of `unauthorizedResponse` in the worker entry module. -/
def unauthorizedMessage : String :=
  "Unauthorized. Requires: Authorization: Bearer <MAHORAGA_API_TOKEN>"

/-- Models `JSON.stringify({ error: msg })` for a message without characters
needing escapes. -/
def jsonError (msg : String) : String :=
  "\x7b\"error\":\"" ++ msg ++ "\"\x7d"

/-- `unauthorizedResponse` from the worker entry module; the router always
calls it with the default empty CORS map. -/
def unauthorizedResponse (cors : List (String × String)) : Resp :=
  { status := 401, statusText := "",
    headers := ("Content-Type", "application/json") :: cors,
    body := some (jsonError unauthorizedMessage) }

/-- Models `JSON.stringify({ status: "ok", timestamp, environment })` for
values without characters needing escapes. -/
def healthBody (timestamp environment : String) : String :=
  "\x7b\"status\":\"ok\",\"timestamp\":\"" ++ timestamp ++
    "\",\"environment\":\"" ++ environment ++ "\"\x7d"

/-- The environment bindings the worker entry module reads. -/
structure Env where
  MAHORAGA_API_TOKEN : Option String
  CORS_ALLOWED_ORIGINS : Option String
  ENVIRONMENT : String
deriving DecidableEq

/-- The worker's `fetch` handler. The durable-object harness stub (`actor`),
the static-asset service (`assets`) and the mounted MCP agent (`mcpAgent`) are
external collaborators passed as functions; `now` models
`new Date().toISOString()`. -/
def routerFetch (env : Env) (actor : ActorReq → Resp) (assets : Req → Resp)
    (mcpAgent : Req → Resp) (now : String) (req : Req) : Resp :=
  let corsHeaders := getCorsHeaders req.origin env.CORS_ALLOWED_ORIGINS
  if req.method = "OPTIONS" then
    { status := 204, statusText := "", headers := corsHeaders, body := none }
  else if req.path = "/health" then
    { status := 200, statusText := "",
      headers := [("Content-Type", "application/json")],
      body := some (healthBody now env.ENVIRONMENT) }
  else if strStartsWith req.path "/api" then
    proxyResponse corsHeaders (actor (dispatchReq req "/api"))
  else if strStartsWith req.path "/mcp" then
    if isAuthorized req.authorization env.MAHORAGA_API_TOKEN then mcpAgent req
    else unauthorizedResponse []
  else if strStartsWith req.path "/agent" then
    proxyResponse corsHeaders (actor (dispatchReq req "/agent"))
  else assets req

/-! ## Z.AI completion-provider adapter (both revisions) -/

/-- Models JavaScript `s.includes(sub)` on lists of characters. -/
def containsL : List Char → List Char → Bool
  | [], sub => sub.isEmpty
  | c :: rest, sub => startsWithL (c :: rest) sub || containsL rest sub

/-- Models JavaScript `s.includes(sub)`. -/
def strContains (s sub : String) : Bool := containsL s.data sub.data

/-- `lower.includes("gpt") || lower.includes("claude") || lower.includes("gemini")`,
applied to the lower-cased model string. -/
def isNonZAIModel (lower : String) : Bool :=
  strContains lower "gpt" || strContains lower "claude" || strContains lower "gemini"

/-- The first revision's constructor model resolution:
`const providedModel = config.model?.toLowerCase() ?? "";`
`this.model = isNonZAIModel ? "GLM-4.7" : (config.model ?? "GLM-4.7");`. -/
def resolveModel_v1 (configModel : Option String) : String :=
  let provided := (configModel.map strToLower).getD ""
  if isNonZAIModel provided then "GLM-4.7" else configModel.getD "GLM-4.7"

/-- The second revision's constructor: `this.model = config.model ?? "GLM-4.7"`. -/
def resolveModel_v2 (configModel : Option String) : String :=
  configModel.getD "GLM-4.7"

/-- `normalizeModel` of the first revision; the guard `if (!model)` also takes
the default for an empty string, which is falsy. -/
def normalizeModel (selfModel : String) (model : Option String) : String :=
  match model with
  | none => selfModel
  | some m =>
    if m = "" then selfModel
    else if isNonZAIModel (strToLower m) then selfModel else m

/-- The `model` field of the request body built by the first revision's
`complete`: `model: this.normalizeModel(params.model)`. -/
def sentModel_v1 (selfModel : String) (paramsModel : Option String) : String :=
  normalizeModel selfModel paramsModel

/-- The `model` field of the request body built by the second revision's
`complete`: `model: params.model ?? this.model`. -/
def sentModel_v2 (selfModel : String) (paramsModel : Option String) : String :=
  paramsModel.getD selfModel

/-- A decoded Z.AI message; optionality reflects what the runtime may actually
receive (the TS cast performs no validation). -/
structure ZMessage where
  content : Option String
  reasoning_content : Option String
deriving DecidableEq

/-- A decoded Z.AI choice; its `message` may be absent. -/
structure ZChoice where
  message : Option ZMessage
  finish_reason : Option String
deriving DecidableEq

/-- The Z.AI usage counters. -/
structure ZUsage where
  prompt_tokens : Int
  completion_tokens : Int
  total_tokens : Int
deriving DecidableEq

/-- The decoded Z.AI JSON envelope; `usage` may be absent at runtime. -/
structure ZEnvelope where
  choices : List ZChoice
  usage : Option ZUsage
deriving DecidableEq

/-- The canonical completion result returned by `complete`. -/
structure CompletionResult where
  content : String
  usage : ZUsage
deriving DecidableEq

/-- Outcome of a JS async function: a returned value, a thrown
`createError(ErrorCode.PROVIDER_ERROR, msg)`, or a thrown builtin runtime
exception (`SyntaxError` from `response.json()` on invalid JSON, `TypeError`
from a property access on `undefined`). -/
inductive JsOutcome (α : Type) where
  | value : α → JsOutcome α
  | providerError : String → JsOutcome α
  | jsError : String → JsOutcome α
deriving DecidableEq

/-- The backend HTTP response as `complete` observes it: `ok` models
`response.ok` (status in the 2xx range), `textBody` what `response.text()`
yields, and `jsonBody` what `response.json()` yields (`none` models invalid
JSON, on which `json()` throws). -/
structure HttpResp where
  ok : Bool
  status : Nat
  textBody : String
  jsonBody : Option ZEnvelope
deriving DecidableEq

/-- `` `Z.AI API error (${response.status}): ${errorText}` `` — the template
literal stringifies the numeric status in decimal. -/
def zaiErrorMsg (status : Nat) (text : String) : String :=
  "Z.AI API error (" ++ Nat.repr status ++ "): " ++ text

/-- Response handling of the first revision's `complete` (everything after the
`fetch` call; the `console.*` calls only use optional chaining and do not
affect the outcome). `data.choices[0]?.message?.content ?? ""` is the option
chain with default, and the unconditional `data.usage.prompt_tokens` access
throws a `TypeError` when `usage` is absent. -/
def handleResponse_v1 (resp : HttpResp) : JsOutcome CompletionResult :=
  if resp.ok = false then
    .providerError (zaiErrorMsg resp.status resp.textBody)
  else
    match resp.jsonBody with
    | none => .jsError "SyntaxError"
    | some data =>
      let content := ((data.choices.head?.bind ZChoice.message).bind ZMessage.content).getD ""
      match data.usage with
      | none => .jsError "TypeError"
      | some u =>
        .value { content := content,
                 usage := { prompt_tokens := u.prompt_tokens,
                            completion_tokens := u.completion_tokens,
                            total_tokens := u.total_tokens } }

/-- Response handling of the second revision's `complete`: identical control
flow (no logging; the same option chain for content and the same unconditional
`data.usage` field accesses). -/
def handleResponse_v2 (resp : HttpResp) : JsOutcome CompletionResult :=
  if resp.ok = false then
    .providerError (zaiErrorMsg resp.status resp.textBody)
  else
    match resp.jsonBody with
    | none => .jsError "SyntaxError"
    | some data =>
      let content := ((data.choices.head?.bind ZChoice.message).bind ZMessage.content).getD ""
      match data.usage with
      | none => .jsError "TypeError"
      | some u =>
        .value { content := content,
                 usage := { prompt_tokens := u.prompt_tokens,
                            completion_tokens := u.completion_tokens,
                            total_tokens := u.total_tokens } }

/-! ## General helper lemmas -/

theorem strMk_data (s : String) : String.mk s.data = s := by
  cases s
  rfl

theorem strStartsWith_append (p t : String) : strStartsWith (p ++ t) p = true := by
  unfold strStartsWith
  rw [String.data_append]
  exact startsWithL_append p.data t.data

theorem strDrop_append (p t : String) : strDrop (p ++ t) p.length = t := by
  unfold strDrop
  rw [String.data_append]
  show String.mk ((p.data ++ t.data).drop p.data.length) = t
  rw [List.drop_left, strMk_data]

theorem containsL_append_middle (pre mid post : List Char) :
    containsL (pre ++ (mid ++ post)) mid = true := by
  induction pre with
  | nil =>
    cases mid with
    | nil => cases post <;> simp [containsL, startsWithL, List.isEmpty]
    | cons c cs =>
      show containsL (c :: (cs ++ post)) (c :: cs) = true
      simp [containsL]
      exact Or.inl (startsWithL_append (c :: cs) post)
  | cons p ps ih =>
    simp [containsL, ih]

theorem strContains_append_middle (pre mid post : String) :
    strContains ((pre ++ mid) ++ post) mid = true := by
  unfold strContains
  rw [String.data_append, String.data_append, List.append_assoc]
  exact containsL_append_middle pre.data mid.data post.data

theorem jsReplaceFirst_leading (p t : String) (hp : p.data ≠ []) :
    jsReplaceFirst (p ++ t) p = t := by
  unfold jsReplaceFirst
  rw [if_neg (by simpa [List.isEmpty_iff] using hp)]
  rw [String.data_append]
  cases hd : p.data with
  | nil => exact absurd hd hp
  | cons c cs =>
    show String.mk (replaceFirstAux (c :: cs) ((c :: cs) ++ t.data)) = t
    show String.mk (replaceFirstAux (c :: cs) (c :: (cs ++ t.data))) = t
    unfold replaceFirstAux
    rw [if_pos (by exact startsWithL_append (c :: cs) t.data)]
    show String.mk (((c :: cs) ++ t.data).drop (c :: cs).length) = t
    rw [List.drop_left, strMk_data]

theorem not_api_of_mcp {p : String} (h : strStartsWith p "/mcp" = true) :
    strStartsWith p "/api" = false := by
  unfold strStartsWith at h ⊢
  rw [show ("/mcp" : String).data = ['/', 'm', 'c', 'p'] from by decide] at h
  rw [show ("/api" : String).data = ['/', 'a', 'p', 'i'] from by decide]
  have hd := eq_append_drop_of_startsWithL _ _ h
  rw [hd]
  have hma : ('m' == 'a') = false := by decide
  simp [startsWithL, hma]

theorem ne_health_of_mcp {p : String} (h : strStartsWith p "/mcp" = true) :
    p ≠ "/health" := by
  intro contra
  rw [contra] at h
  exact absurd h (by decide)

theorem not_api_of_agent {p : String} (h : strStartsWith p "/agent" = true) :
    strStartsWith p "/api" = false := by
  unfold strStartsWith at h ⊢
  rw [show ("/agent" : String).data = ['/', 'a', 'g', 'e', 'n', 't'] from by decide] at h
  rw [show ("/api" : String).data = ['/', 'a', 'p', 'i'] from by decide]
  have hd := eq_append_drop_of_startsWithL _ _ h
  rw [hd]
  have hgp : ('g' == 'p') = false := by decide
  simp [startsWithL, hgp]

theorem not_mcp_of_agent {p : String} (h : strStartsWith p "/agent" = true) :
    strStartsWith p "/mcp" = false := by
  unfold strStartsWith at h ⊢
  rw [show ("/agent" : String).data = ['/', 'a', 'g', 'e', 'n', 't'] from by decide] at h
  rw [show ("/mcp" : String).data = ['/', 'm', 'c', 'p'] from by decide]
  have hd := eq_append_drop_of_startsWithL _ _ h
  rw [hd]
  have ham : ('a' == 'm') = false := by decide
  simp [startsWithL, ham]

theorem ne_health_of_agent {p : String} (h : strStartsWith p "/agent" = true) :
    p ≠ "/health" := by
  intro contra
  rw [contra] at h
  exact absurd h (by decide)

theorem ne_health_of_api {p : String} (h : strStartsWith p "/api" = true) :
    p ≠ "/health" := by
  intro contra
  rw [contra] at h
  exact absurd h (by decide)

/-! ## Header-merge lemmas -/

theorem hlookup_hset_eq (hs : List (String × String)) (k v k' : String)
    (hk : strToLower k' = strToLower k) :
    hlookup (hset hs k v) k' = some v := by
  unfold hset hlookup
  by_cases hany : (hs.any fun p => strToLower p.1 == strToLower k) = true
  · rw [if_pos hany]
    rw [List.find?_map]
    have hpred : ∀ p : String × String,
        ((fun p : String × String => strToLower p.1 == strToLower k') ∘
          (fun p : String × String =>
            if strToLower p.1 == strToLower k then (p.1, v) else p)) p =
          (fun p : String × String => strToLower p.1 == strToLower k) p := by
      intro p
      simp only [Function.comp_apply]
      by_cases hp : (strToLower p.1 == strToLower k) = true
      · rw [if_pos hp, hk]
      · rw [if_neg hp, hk]
    rw [funext hpred]
    rcases hfind : hs.find? (fun p => strToLower p.1 == strToLower k) with _ | p
    · exfalso
      rcases List.any_eq_true.mp hany with ⟨p, hmem, hp⟩
      exact absurd hp (List.find?_eq_none.mp hfind p hmem)
    · have hp := List.find?_some hfind
      rw [hfind]
      simp only [Option.map_some']
      rw [if_pos hp]
  · rw [if_neg hany]
    have hall : ∀ p ∈ hs, ¬((strToLower p.1 == strToLower k) = true) := by
      intro p hmem hp
      exact hany (List.any_eq_true.mpr ⟨p, hmem, hp⟩)
    have hnone : hs.find? (fun p => strToLower p.1 == strToLower k') = none := by
      apply List.find?_eq_none.mpr
      intro p hmem
      rw [hk]
      exact hall p hmem
    rw [List.find?_append, hnone]
    simp [hk]

theorem hlookup_hset_ne (hs : List (String × String)) (k v k' : String)
    (hk : strToLower k' ≠ strToLower k) :
    hlookup (hset hs k v) k' = hlookup hs k' := by
  unfold hset hlookup
  by_cases hany : (hs.any fun p => strToLower p.1 == strToLower k) = true
  · rw [if_pos hany]
    rw [List.find?_map]
    have hpred : ∀ p : String × String,
        ((fun p : String × String => strToLower p.1 == strToLower k') ∘
          (fun p : String × String =>
            if strToLower p.1 == strToLower k then (p.1, v) else p)) p =
          (fun p : String × String => strToLower p.1 == strToLower k') p := by
      intro p
      by_cases hp : (strToLower p.1 == strToLower k) = true
      · simp only [Function.comp_apply, if_pos hp]
      · simp only [Function.comp_apply, if_neg hp]
    rw [funext hpred]
    rcases hfind : hs.find? (fun p => strToLower p.1 == strToLower k') with _ | p
    · rw [hfind]
      rfl
    · have hp := List.find?_some hfind
      have hpk : ¬((strToLower p.1 == strToLower k) = true) := by
        intro hbe
        exact hk ((eq_of_beq hp).symm.trans (eq_of_beq hbe))
      rw [hfind]
      simp only [Option.map_some']
      rw [if_neg hpk]
  · rw [if_neg hany]
    rw [List.find?_append]
    have hsingle : ([(k, v)].find? fun p => strToLower p.1 == strToLower k') = none := by
      simp only [List.find?_singleton]
      rw [if_neg (by intro hbe; exact hk (eq_of_beq hbe).symm)]
    rw [hsingle]
    cases hs.find? (fun p => strToLower p.1 == strToLower k') <;> rfl

theorem hlookup_overlay_cors (hs : List (String × String)) (o : String) :
    hlookup (overlayHeaders hs (corsAllowHeaders o)) "Access-Control-Allow-Origin" = some o
    ∧ hlookup (overlayHeaders hs (corsAllowHeaders o)) "Access-Control-Allow-Methods" =
        some "GET, POST, PUT, DELETE, OPTIONS"
    ∧ hlookup (overlayHeaders hs (corsAllowHeaders o)) "Access-Control-Allow-Headers" =
        some "Content-Type, Authorization"
    ∧ hlookup (overlayHeaders hs (corsAllowHeaders o)) "Access-Control-Max-Age" = some "86400" := by
  unfold overlayHeaders corsAllowHeaders
  simp only [List.foldl_cons, List.foldl_nil]
  refine ⟨?_, ?_, ?_, ?_⟩
  · rw [hlookup_hset_ne _ _ _ _ (by decide), hlookup_hset_ne _ _ _ _ (by decide),
      hlookup_hset_ne _ _ _ _ (by decide), hlookup_hset_eq _ _ _ _ (by decide)]
  · rw [hlookup_hset_ne _ _ _ _ (by decide), hlookup_hset_ne _ _ _ _ (by decide),
      hlookup_hset_eq _ _ _ _ (by decide)]
  · rw [hlookup_hset_ne _ _ _ _ (by decide), hlookup_hset_eq _ _ _ _ (by decide)]
  · rw [hlookup_hset_eq _ _ _ _ (by decide)]

theorem hlookup_overlay_other (hs cors : List (String × String)) (k : String)
    (h : ∀ kv ∈ cors, strToLower k ≠ strToLower kv.1) :
    hlookup (overlayHeaders hs cors) k = hlookup hs k := by
  induction cors generalizing hs with
  | nil => rfl
  | cons kv cors ih =>
    have hstep : overlayHeaders hs (kv :: cors) = overlayHeaders (hset hs kv.1 kv.2) cors := rfl
    rw [hstep, ih (hset hs kv.1 kv.2) (fun q hq => h q (List.mem_cons_of_mem kv hq))]
    exact hlookup_hset_ne hs kv.1 kv.2 k (h kv (List.mem_cons_self kv cors))

/-! ## Claim theorems -/

/-- C2: `isAuthorized` returns true exactly when a (nonempty) secret is
configured and the request carries `Authorization: Bearer <secret>`; an absent
secret, an empty secret (falsy in the JS guard, hence not configured), an
absent header or another scheme all fail closed. The comparator accepts
equal-length strings iff they are character-for-character equal, rejects
different-length strings, and for equal lengths its loop runs over every
character position (the instrumented iteration count equals the full length),
with no early exit. -/
theorem auth_guard_characterization :
    (∀ (h tok : Option String),
        isAuthorized h tok = true ↔
          ∃ t, tok = some t ∧ t ≠ "" ∧ h = some ("Bearer " ++ t))
    ∧ (∀ a b : String, a.length = b.length → (constantTimeCompare a b = true ↔ a = b))
    ∧ (∀ a b : String, a.length ≠ b.length → constantTimeCompare a b = false)
    ∧ (∀ a b : String, a.length = b.length → (ctcScan a b).1 = a.length) := by
  refine ⟨?_, constantTimeCompare_iff, constantTimeCompare_length_ne, ctcScan_length⟩
  intro h tok
  constructor
  · intro hab
    cases tok with
    | none => simp [isAuthorized] at hab
    | some t =>
      cases h with
      | none =>
        rw [show isAuthorized none (some t) = false from by
          show (if t = "" then false else false) = false
          exact ite_self false] at hab
        cases hab
      | some s =>
        rw [show isAuthorized (some s) (some t) =
            (if t = "" then false
             else if strStartsWith s "Bearer " = true then
               constantTimeCompare (strDrop s 7) t
             else false) from rfl] at hab
        by_cases ht : t = ""
        · rw [if_pos ht] at hab
          cases hab
        · rw [if_neg ht] at hab
          by_cases hs : strStartsWith s "Bearer " = true
          · rw [if_pos hs] at hab
            by_cases hlen : (strDrop s 7).length = t.length
            · have heq := (constantTimeCompare_iff _ _ hlen).mp hab
              have hdata : s.data = ("Bearer " : String).data ++ s.data.drop 7 := by
                have hx := eq_append_drop_of_startsWithL s.data (("Bearer " : String).data) hs
                rwa [show (("Bearer " : String).data).length = 7 from by decide] at hx
              have hsplit : s = "Bearer " ++ strDrop s 7 := by
                apply String.ext
                rw [String.data_append]
                exact hdata
              exact ⟨t, rfl, ht, by rw [← heq]; exact congrArg some hsplit⟩
            · rw [constantTimeCompare_length_ne _ _ hlen] at hab
              cases hab
          · rw [if_neg hs] at hab
            cases hab
  · rintro ⟨t, rfl, ht, rfl⟩
    rw [show isAuthorized (some ("Bearer " ++ t)) (some t) =
        (if t = "" then false
         else if strStartsWith ("Bearer " ++ t) "Bearer " = true then
           constantTimeCompare (strDrop ("Bearer " ++ t) 7) t
         else false) from rfl]
    rw [if_neg ht, if_pos (strStartsWith_append "Bearer " t)]
    have hdrop : strDrop ("Bearer " ++ t) 7 = t := by
      have hx := strDrop_append "Bearer " t
      rwa [show ("Bearer " : String).length = 7 from by decide] at hx
    rw [hdrop]
    exact (constantTimeCompare_iff t t rfl).mpr rfl

theorem auth_guard_characterization_witness :
    isAuthorized (some "Bearer s3cret") (some "s3cret") = true
    ∧ constantTimeCompare "abc" "abd" = false
    ∧ constantTimeCompare "ab" "abc" = false
    ∧ (ctcScan "abc" "abd").1 = 3 := by
  refine ⟨?_, by decide, by decide, by decide⟩
  exact (auth_guard_characterization.1 (some "Bearer s3cret") (some "s3cret")).mpr
    ⟨"s3cret", rfl, by decide, by decide⟩

/-- C1 counterexample: the origin `http://localhost:evil` — where what follows
the colon is not a port — is granted the four allow headers by the code under
an empty configuration, while the claimed decision procedure (localhost with a
numeric port, or allow-list membership, or wildcard) returns the empty map. -/
theorem corsClaim_counterexample :
    getCorsHeaders (some "http://localhost:evil") none =
      corsAllowHeaders "http://localhost:evil"
    ∧ claimCorsHeaders (some "http://localhost:evil") none = []
    ∧ (corsAllowHeaders "http://localhost:evil").length = 4 := by
  refine ⟨by decide, by decide, rfl⟩

/-- C1 (amended): `getCorsHeaders` returns a non-empty map — always the
four-header allow map echoing the exact origin — exactly when the origin
begins with `http://localhost:` or `http://127.0.0.1:` (a string-prefix test,
regardless of what follows the colon), or is literally contained in the
comma-split trimmed allow-list, or the allow-list contains the wildcard
token; otherwise it returns the empty map. For allow-list
`https://a.example`, the origin `https://a.example:443` and a subdomain are
rejected. -/
theorem getCorsHeaders_decision :
    (∀ (o : String) (cfg : Option String),
        getCorsHeaders (some o) cfg ≠ [] ↔
          (strStartsWith o "http://localhost:" = true
            ∨ strStartsWith o "http://127.0.0.1:" = true
            ∨ (allowListOf cfg).contains o = true
            ∨ (allowListOf cfg).contains "*" = true))
    ∧ (∀ (o : String) (cfg : Option String),
        getCorsHeaders (some o) cfg = [] ∨ getCorsHeaders (some o) cfg = corsAllowHeaders o)
    ∧ (∀ origin : Option String,
        getCorsHeaders origin (some "*") = corsAllowHeaders (origin.getD ""))
    ∧ getCorsHeaders (some "https://a.example") (some "https://a.example") =
        corsAllowHeaders "https://a.example"
    ∧ getCorsHeaders (some "https://a.example:443") (some "https://a.example") = []
    ∧ getCorsHeaders (some "https://sub.a.example") (some "https://a.example") = [] := by
  refine ⟨?_, ?_, ?_, by decide, by decide, by decide⟩
  · intro o cfg
    unfold getCorsHeaders
    simp only [Option.getD_some]
    by_cases hc : (((strStartsWith o "http://localhost:" || strStartsWith o "http://127.0.0.1:")
        || (allowListOf cfg).contains o) || (allowListOf cfg).contains "*") = true
    · rw [if_pos hc]
      constructor
      · intro _
        simpa [Bool.or_eq_true, or_assoc] using hc
      · intro _
        simp [corsAllowHeaders]
    · rw [if_neg hc]
      constructor
      · intro hfalse
        exact absurd rfl hfalse
      · intro hdisj
        exfalso
        apply hc
        simp only [Bool.or_eq_true]
        rcases hdisj with h1 | h1 | h1 | h1
        · exact Or.inl (Or.inl (Or.inl h1))
        · exact Or.inl (Or.inl (Or.inr h1))
        · exact Or.inl (Or.inr h1)
        · exact Or.inr h1
  · intro o cfg
    unfold getCorsHeaders
    simp only [Option.getD_some]
    by_cases hc : (((strStartsWith o "http://localhost:" || strStartsWith o "http://127.0.0.1:")
        || (allowListOf cfg).contains o) || (allowListOf cfg).contains "*") = true
    · rw [if_pos hc]
      exact Or.inr rfl
    · rw [if_neg hc]
      exact Or.inl rfl
  · intro origin
    unfold getCorsHeaders
    have hcond : (((strStartsWith (origin.getD "") "http://localhost:"
        || strStartsWith (origin.getD "") "http://127.0.0.1:")
        || (allowListOf (some "*")).contains (origin.getD ""))
        || (allowListOf (some "*")).contains "*") = true := by
      have hw : (allowListOf (some "*")).contains "*" = true := by decide
      rw [hw, Bool.or_true]
    rw [if_pos hcond]

theorem getCorsHeaders_decision_witness :
    getCorsHeaders (some "https://a.example") (some "https://a.example") ≠ [] :=
  (getCorsHeaders_decision.1 "https://a.example" (some "https://a.example")).mpr
    (Or.inr (Or.inr (Or.inl (by decide))))

/-- C10: any origin that merely begins with `http://localhost:` or
`http://127.0.0.1:` is granted the four allow headers, whatever the
configured allow-list and whatever follows the colon — the localhost check is
a string-prefix test, not a port-pattern match; in particular
`http://localhost:evil` (where `evil` is not a port number) is allowed. -/
theorem getCorsHeaders_localhost_prefix :
    (∀ (rest : String) (cfg : Option String),
        getCorsHeaders (some ("http://localhost:" ++ rest)) cfg =
          corsAllowHeaders ("http://localhost:" ++ rest))
    ∧ (∀ (rest : String) (cfg : Option String),
        getCorsHeaders (some ("http://127.0.0.1:" ++ rest)) cfg =
          corsAllowHeaders ("http://127.0.0.1:" ++ rest))
    ∧ getCorsHeaders (some "http://localhost:evil") none =
        corsAllowHeaders "http://localhost:evil"
    ∧ isLocalhostWithPort "http://localhost:evil" = false := by
  refine ⟨?_, ?_, by decide, by decide⟩
  · intro rest cfg
    unfold getCorsHeaders
    have h1 : strStartsWith ("http://localhost:" ++ rest) "http://localhost:" = true :=
      strStartsWith_append _ _
    simp [h1]
  · intro rest cfg
    unfold getCorsHeaders
    have h1 : strStartsWith ("http://127.0.0.1:" ++ rest) "http://127.0.0.1:" = true :=
      strStartsWith_append _ _
    simp [h1]

/-- C3 counterexample: the second revision's `complete` performs no model
normalization — `model: params.model ?? this.model` — so the rival-fragment
model `gpt-4` is transmitted unchanged instead of being rewritten to the
adapter default `GLM-4.7`. -/
theorem model_counterexample_v2 :
    sentModel_v2 "GLM-4.7" (some "gpt-4") = "gpt-4"
    ∧ isNonZAIModel (strToLower "gpt-4") = true
    ∧ ("gpt-4" == "GLM-4.7") = false :=
  ⟨rfl, by decide, by decide⟩

/-- C3 (amended): only the first revision's adapter normalizes: a model
containing a rival fragment (case-insensitive `gpt`/`claude`/`gemini`) is
rewritten to the adapter's default, any other nonempty model is forwarded
unchanged, and an absent model falls back to the default. The second
revision's `complete` forwards every caller-supplied model unchanged
(defaulting only when absent); in particular `gpt-4` is rewritten to the
default by the first revision only, and `custom-llm-7` is forwarded unchanged
by both. -/
theorem model_normalization_by_revision :
    (∀ (d m : String), isNonZAIModel (strToLower m) = true → sentModel_v1 d (some m) = d)
    ∧ (∀ (d m : String), m ≠ "" → isNonZAIModel (strToLower m) = false →
        sentModel_v1 d (some m) = m)
    ∧ (∀ d : String, sentModel_v1 d none = d)
    ∧ (∀ (d m : String), sentModel_v2 d (some m) = m)
    ∧ sentModel_v1 "GLM-4.7" (some "gpt-4") = "GLM-4.7"
    ∧ sentModel_v1 "GLM-4.7" (some "custom-llm-7") = "custom-llm-7"
    ∧ sentModel_v2 "GLM-4.7" (some "custom-llm-7") = "custom-llm-7" := by
  refine ⟨?_, ?_, fun d => rfl, fun d m => rfl, by decide, by decide, rfl⟩
  · intro d m h
    rw [show sentModel_v1 d (some m) =
        (if m = "" then d
         else if isNonZAIModel (strToLower m) = true then d else m) from rfl]
    by_cases hm : m = ""
    · rw [if_pos hm]
    · rw [if_neg hm, if_pos h]
  · intro d m hm h
    rw [show sentModel_v1 d (some m) =
        (if m = "" then d
         else if isNonZAIModel (strToLower m) = true then d else m) from rfl]
    rw [if_neg hm, if_neg (by simp [h])]

theorem model_normalization_witness :
    sentModel_v1 "GLM-4.7" (some "claude-3") = "GLM-4.7"
    ∧ sentModel_v1 "GLM-4.7" (some "my-model") = "my-model" :=
  ⟨model_normalization_by_revision.1 "GLM-4.7" "claude-3" (by decide),
    model_normalization_by_revision.2.1 "GLM-4.7" "my-model" (by decide) (by decide)⟩

theorem zaiErrorMsg_contains (st : Nat) (txt : String) :
    strContains (zaiErrorMsg st txt) (Nat.repr st) = true
    ∧ strContains (zaiErrorMsg st txt) txt = true := by
  constructor
  · unfold zaiErrorMsg
    rw [String.append_assoc ("Z.AI API error (" ++ Nat.repr st) "): " txt]
    exact strContains_append_middle "Z.AI API error (" (Nat.repr st) ("): " ++ txt)
  · unfold zaiErrorMsg
    rw [show ("Z.AI API error (" ++ Nat.repr st ++ "): ") ++ txt =
        (("Z.AI API error (" ++ Nat.repr st ++ "): ") ++ txt) ++ "" from
      (String.append_empty _).symm]
    exact strContains_append_middle ("Z.AI API error (" ++ Nat.repr st ++ "): ") txt ""

/-- C4: for every non-2xx backend response, both revisions of `complete` read
the body text and throw a provider error whose message carries the decimal
HTTP status and the raw body text, and return no result; in particular a
status-500 response with body `boom` yields a provider error whose message
contains `500` and `boom`. -/
theorem provider_error_carries_status_and_body :
    (∀ (st : Nat) (txt : String) (jb : Option ZEnvelope),
        handleResponse_v1 { ok := false, status := st, textBody := txt, jsonBody := jb } =
          JsOutcome.providerError (zaiErrorMsg st txt)
        ∧ handleResponse_v2 { ok := false, status := st, textBody := txt, jsonBody := jb } =
          JsOutcome.providerError (zaiErrorMsg st txt)
        ∧ strContains (zaiErrorMsg st txt) (Nat.repr st) = true
        ∧ strContains (zaiErrorMsg st txt) txt = true)
    ∧ handleResponse_v1 { ok := false, status := 500, textBody := "boom", jsonBody := none } =
        JsOutcome.providerError "Z.AI API error (500): boom"
    ∧ strContains "Z.AI API error (500): boom" "500" = true
    ∧ strContains "Z.AI API error (500): boom" "boom" = true := by
  refine ⟨?_, by decide, by decide, by decide⟩
  intro st txt jb
  exact ⟨rfl, rfl, (zaiErrorMsg_contains st txt).1, (zaiErrorMsg_contains st txt).2⟩

/-- C5 counterexample: a 2xx response whose decoded envelope has an empty
`choices` sequence (usage present) does not raise a provider error in either
revision: `choices[0]?.message?.content ?? ""` degrades to the empty string
and `complete` returns a result with content `""`. -/
theorem empty_choices_counterexample :
    handleResponse_v1 { ok := true, status := 200, textBody := "", jsonBody := some { choices := [], usage := some { prompt_tokens := 1, completion_tokens := 2, total_tokens := 3 } } } =
      JsOutcome.value { content := "", usage := { prompt_tokens := 1, completion_tokens := 2, total_tokens := 3 } }
    ∧ handleResponse_v2 { ok := true, status := 200, textBody := "", jsonBody := some { choices := [], usage := some { prompt_tokens := 1, completion_tokens := 2, total_tokens := 3 } } } =
      JsOutcome.value { content := "", usage := { prompt_tokens := 1, completion_tokens := 2, total_tokens := 3 } } :=
  ⟨rfl, rfl⟩

/-- C5 (amended): for every 2xx response whose envelope carries usage, a first
choice whose message lacks a content field at any level — including an empty
`choices` sequence — makes both revisions of `complete` return result content
`""` without raising; invalid JSON makes `response.json()` throw a
`SyntaxError` (empty `choices` does not raise). -/
theorem missing_content_defaults_empty :
    (∀ (ch : List ZChoice) (u : ZUsage) (st : Nat) (txt : String),
        ((ch.head?.bind ZChoice.message).bind ZMessage.content) = none →
        handleResponse_v1 { ok := true, status := st, textBody := txt, jsonBody := some { choices := ch, usage := some u } } =
          JsOutcome.value { content := "", usage := u }
        ∧ handleResponse_v2 { ok := true, status := st, textBody := txt, jsonBody := some { choices := ch, usage := some u } } =
          JsOutcome.value { content := "", usage := u })
    ∧ (∀ (st : Nat) (txt : String),
        handleResponse_v1 { ok := true, status := st, textBody := txt, jsonBody := none } =
          JsOutcome.jsError "SyntaxError"
        ∧ handleResponse_v2 { ok := true, status := st, textBody := txt, jsonBody := none } =
          JsOutcome.jsError "SyntaxError") := by
  constructor
  · intro ch u st txt h
    constructor
    · have h1 : handleResponse_v1 { ok := true, status := st, textBody := txt, jsonBody := some { choices := ch, usage := some u } } = JsOutcome.value { content := ((ch.head?.bind ZChoice.message).bind ZMessage.content).getD "", usage := u } := rfl
      rw [h1, h]
      rfl
    · have h2 : handleResponse_v2 { ok := true, status := st, textBody := txt, jsonBody := some { choices := ch, usage := some u } } = JsOutcome.value { content := ((ch.head?.bind ZChoice.message).bind ZMessage.content).getD "", usage := u } := rfl
      rw [h2, h]
      rfl
  · intro st txt
    exact ⟨rfl, rfl⟩

theorem missing_content_defaults_empty_witness :
    handleResponse_v1 { ok := true, status := 200, textBody := "", jsonBody := some { choices := [{ message := some { content := none, reasoning_content := none }, finish_reason := some "stop" }], usage := some { prompt_tokens := 10, completion_tokens := 0, total_tokens := 10 } } } =
      JsOutcome.value { content := "", usage := { prompt_tokens := 10, completion_tokens := 0, total_tokens := 10 } } :=
  (missing_content_defaults_empty.1 [{ message := some { content := none, reasoning_content := none }, finish_reason := some "stop" }] { prompt_tokens := 10, completion_tokens := 0, total_tokens := 10 } 200 "" rfl).1

/-- C6 counterexample: a 2xx response whose decoded envelope lacks the usage
object makes both revisions of `complete` throw — the unconditional
`data.usage.prompt_tokens` access is a `TypeError` on `undefined` — instead of
returning a best-effort result. -/
theorem missing_usage_counterexample :
    handleResponse_v1 { ok := true, status := 200, textBody := "", jsonBody := some { choices := [{ message := some { content := some "hi", reasoning_content := none }, finish_reason := some "stop" }], usage := none } } =
      JsOutcome.jsError "TypeError"
    ∧ handleResponse_v2 { ok := true, status := 200, textBody := "", jsonBody := some { choices := [{ message := some { content := some "hi", reasoning_content := none }, finish_reason := some "stop" }], usage := none } } =
      JsOutcome.jsError "TypeError" :=
  ⟨rfl, rfl⟩

/-- C6 (amended): for every 2xx backend response whose decoded envelope is
missing the usage data, both revisions of `complete` raise a runtime
`TypeError` (the usage counters are read unconditionally); absent usage is not
tolerated as a value-level concern. -/
theorem missing_usage_raises :
    ∀ (ch : List ZChoice) (st : Nat) (txt : String),
      handleResponse_v1 { ok := true, status := st, textBody := txt, jsonBody := some { choices := ch, usage := none } } =
        JsOutcome.jsError "TypeError"
      ∧ handleResponse_v2 { ok := true, status := st, textBody := txt, jsonBody := some { choices := ch, usage := none } } =
        JsOutcome.jsError "TypeError" :=
  fun _ _ _ => ⟨rfl, rfl⟩

theorem dispatchReq_eq (req : Req) (pre suffix : String)
    (hpre : pre.data ≠ []) (hpath : req.path = pre ++ suffix) :
    dispatchReq req pre =
      { method := req.method,
        path := if suffix = "" then "/status" else urlResolvePath suffix,
        search := req.search, origin := req.origin,
        authorization := req.authorization, body := req.body } := by
  show ({ method := req.method,
          path := urlResolvePath (if jsReplaceFirst req.path pre = "" then "/status" else jsReplaceFirst req.path pre),
          search := req.search, origin := req.origin,
          authorization := req.authorization, body := req.body } : ActorReq) = _
  rw [hpath, jsReplaceFirst_leading _ _ hpre]
  by_cases hs : suffix = ""
  · rw [if_pos hs, if_pos hs]
    congr 1
  · rw [if_neg hs, if_neg hs]

theorem routerFetch_unfold (env : Env) (actor : ActorReq → Resp)
    (assets mcpAgent : Req → Resp) (now : String) (req : Req) :
    routerFetch env actor assets mcpAgent now req =
      (if req.method = "OPTIONS" then
        { status := 204, statusText := "",
          headers := getCorsHeaders req.origin env.CORS_ALLOWED_ORIGINS, body := none }
      else if req.path = "/health" then
        { status := 200, statusText := "",
          headers := [("Content-Type", "application/json")],
          body := some (healthBody now env.ENVIRONMENT) }
      else if strStartsWith req.path "/api" = true then
        proxyResponse (getCorsHeaders req.origin env.CORS_ALLOWED_ORIGINS)
          (actor (dispatchReq req "/api"))
      else if strStartsWith req.path "/mcp" = true then
        (if isAuthorized req.authorization env.MAHORAGA_API_TOKEN = true then mcpAgent req
         else unauthorizedResponse [])
      else if strStartsWith req.path "/agent" = true then
        proxyResponse (getCorsHeaders req.origin env.CORS_ALLOWED_ORIGINS)
          (actor (dispatchReq req "/agent"))
      else assets req) := rfl

/-- Concrete collaborators, environment and requests used in closed router
instances below. -/
def actorK : ActorReq → Resp :=
  fun _ => { status := 200, statusText := "OK", headers := [("X-Actor", "1")], body := some "payload" }

def assetsK : Req → Resp :=
  fun _ => { status := 200, statusText := "", headers := [], body := some "asset" }

def mcpK : Req → Resp :=
  fun _ => { status := 200, statusText := "", headers := [], body := none }

def envK : Env :=
  { MAHORAGA_API_TOKEN := none, CORS_ALLOWED_ORIGINS := none, ENVIRONMENT := "dev" }

def mcpReqK : Req :=
  { method := "GET", path := "/mcp/tools", search := "", origin := some "http://localhost:3000", authorization := none, body := none }

def assetReqK : Req :=
  { method := "GET", path := "/dashboard", search := "", origin := some "http://localhost:3000", authorization := none, body := none }

def apiReqK : Req :=
  { method := "GET", path := "/api/state", search := "", origin := some "http://localhost:3000", authorization := none, body := none }

/-- C8: the dispatcher strips the matched prefix from the inbound path,
defaults an empty stripped path to the canonical `/status`, preserves the
original query string, and forwards method, key headers and body unchanged;
inbound `/api` (no suffix) is forwarded to actor path `/status`, and inbound
`/agent/foo?x=1` to `/foo?x=1`. -/
theorem dispatch_strips_and_defaults :
    (∀ (m se su : String) (o a b : Option String),
        dispatchReq { method := m, path := "/api" ++ su, search := se, origin := o, authorization := a, body := b } "/api" =
          { method := m, path := if su = "" then "/status" else urlResolvePath su, search := se, origin := o, authorization := a, body := b })
    ∧ (∀ (m se su : String) (o a b : Option String),
        dispatchReq { method := m, path := "/agent" ++ su, search := se, origin := o, authorization := a, body := b } "/agent" =
          { method := m, path := if su = "" then "/status" else urlResolvePath su, search := se, origin := o, authorization := a, body := b })
    ∧ (dispatchReq { method := "GET", path := "/api", search := "", origin := none, authorization := none, body := none } "/api").path = "/status"
    ∧ (dispatchReq { method := "GET", path := "/agent/foo", search := "?x=1", origin := none, authorization := none, body := none } "/agent").path = "/foo"
    ∧ (dispatchReq { method := "GET", path := "/agent/foo", search := "?x=1", origin := none, authorization := none, body := none } "/agent").search = "?x=1" := by
  refine ⟨?_, ?_, by decide, by decide, by decide⟩
  · intro m se su o a b
    exact dispatchReq_eq _ "/api" su (by decide) rfl
  · intro m se su o a b
    exact dispatchReq_eq _ "/agent" su (by decide) rfl

/-- C9: for every proxied request (path prefixed `/api` or `/agent`, not a
preflight), the router emits exactly the actor's response with status code,
status text and body preserved and the CORS headers resolved from the original
inbound request overlaid onto the actor's headers; on the merged map each of
the four CORS keys reads back the CORS value (CORS wins on any collision,
case-insensitively) and every key not set by CORS reads back unchanged. -/
theorem proxy_preserves_and_merges :
    (∀ (env : Env) (actor : ActorReq → Resp) (assets mcpAgent : Req → Resp)
        (now : String) (req : Req),
        req.method ≠ "OPTIONS" → strStartsWith req.path "/api" = true →
        routerFetch env actor assets mcpAgent now req =
          proxyResponse (getCorsHeaders req.origin env.CORS_ALLOWED_ORIGINS)
            (actor (dispatchReq req "/api")))
    ∧ (∀ (env : Env) (actor : ActorReq → Resp) (assets mcpAgent : Req → Resp)
        (now : String) (req : Req),
        req.method ≠ "OPTIONS" → strStartsWith req.path "/agent" = true →
        routerFetch env actor assets mcpAgent now req =
          proxyResponse (getCorsHeaders req.origin env.CORS_ALLOWED_ORIGINS)
            (actor (dispatchReq req "/agent")))
    ∧ (∀ (cors : List (String × String)) (resp : Resp),
        (proxyResponse cors resp).status = resp.status
        ∧ (proxyResponse cors resp).statusText = resp.statusText
        ∧ (proxyResponse cors resp).body = resp.body)
    ∧ (∀ (o : String) (resp : Resp),
        hlookup (proxyResponse (corsAllowHeaders o) resp).headers "Access-Control-Allow-Origin" = some o
        ∧ hlookup (proxyResponse (corsAllowHeaders o) resp).headers "Access-Control-Allow-Methods" =
            some "GET, POST, PUT, DELETE, OPTIONS"
        ∧ hlookup (proxyResponse (corsAllowHeaders o) resp).headers "Access-Control-Allow-Headers" =
            some "Content-Type, Authorization"
        ∧ hlookup (proxyResponse (corsAllowHeaders o) resp).headers "Access-Control-Max-Age" = some "86400")
    ∧ (∀ (cors : List (String × String)) (resp : Resp) (k : String),
        (∀ kv ∈ cors, strToLower k ≠ strToLower kv.1) →
        hlookup (proxyResponse cors resp).headers k = hlookup resp.headers k) := by
  refine ⟨?_, ?_, fun cors resp => ⟨rfl, rfl, rfl⟩,
    fun o resp => hlookup_overlay_cors resp.headers o,
    fun cors resp k h => hlookup_overlay_other resp.headers cors k h⟩
  · intro env actor assets mcpAgent now req hm hapi
    rw [routerFetch_unfold, if_neg hm, if_neg (ne_health_of_api hapi), if_pos hapi]
  · intro env actor assets mcpAgent now req hm hagent
    rw [routerFetch_unfold, if_neg hm, if_neg (ne_health_of_agent hagent),
      if_neg (by simp [not_api_of_agent hagent]),
      if_neg (by simp [not_mcp_of_agent hagent]), if_pos hagent]

theorem proxy_preserves_and_merges_witness :
    routerFetch envK actorK assetsK mcpK "t" apiReqK =
      proxyResponse (getCorsHeaders apiReqK.origin envK.CORS_ALLOWED_ORIGINS)
        (actorK (dispatchReq apiReqK "/api")) :=
  proxy_preserves_and_merges.1 envK actorK assetsK mcpK "t" apiReqK (by decide) (by decide)

/-- C7 counterexample: the 401 body's placeholder names the binding —
`<MAHORAGA_API_TOKEN>`, not `<token>` as claimed — and the static-asset
fallback response carries no CORS headers even for an allowed origin, so CORS
headers are not merged onto all responses other than 401/health/preflight. -/
theorem unauthorized_claim_counterexample :
    (routerFetch envK actorK assetsK mcpK "t" mcpReqK).status = 401
    ∧ (routerFetch envK actorK assetsK mcpK "t" mcpReqK).body = some (jsonError unauthorizedMessage)
    ∧ (jsonError unauthorizedMessage ==
        jsonError "Unauthorized. Requires: Authorization: Bearer <token>") = false
    ∧ routerFetch envK actorK assetsK mcpK "t" assetReqK = assetsK assetReqK
    ∧ (routerFetch envK actorK assetsK mcpK "t" assetReqK).headers = []
    ∧ getCorsHeaders assetReqK.origin envK.CORS_ALLOWED_ORIGINS =
        corsAllowHeaders "http://localhost:3000" := by
  refine ⟨by decide, by decide, by decide, by decide, by decide, by decide⟩

/-- C7 (amended): every non-preflight `/mcp`-prefixed request failing the
authorization guard gets status 401 with JSON body exactly
`{"error": "Unauthorized. Requires: Authorization: Bearer <MAHORAGA_API_TOKEN>"}`
and no CORS headers; CORS headers are merged onto the proxied `/api` and
`/agent` responses and form the preflight response's headers, while the
health, 401 and static-asset-fallback responses are emitted without them (the
asset fallback is returned untouched). -/
theorem router_mcp_unauthorized :
    (∀ (env : Env) (actor : ActorReq → Resp) (assets mcpAgent : Req → Resp)
        (now : String) (req : Req),
        req.method ≠ "OPTIONS" → strStartsWith req.path "/mcp" = true →
        isAuthorized req.authorization env.MAHORAGA_API_TOKEN = false →
        routerFetch env actor assets mcpAgent now req = unauthorizedResponse []
        ∧ (unauthorizedResponse []).status = 401
        ∧ (unauthorizedResponse []).body = some (jsonError unauthorizedMessage)
        ∧ hlookup (unauthorizedResponse []).headers "Access-Control-Allow-Origin" = none)
    ∧ (∀ (env : Env) (actor : ActorReq → Resp) (assets mcpAgent : Req → Resp)
        (now : String) (req : Req),
        req.method ≠ "OPTIONS" → req.path ≠ "/health" →
        strStartsWith req.path "/api" = false → strStartsWith req.path "/mcp" = false →
        strStartsWith req.path "/agent" = false →
        routerFetch env actor assets mcpAgent now req = assets req) := by
  constructor
  · intro env actor assets mcpAgent now req hm hp hauth
    refine ⟨?_, rfl, rfl, by decide⟩
    rw [routerFetch_unfold, if_neg hm, if_neg (ne_health_of_mcp hp),
      if_neg (by simp [not_api_of_mcp hp]), if_pos hp, if_neg (by simp [hauth])]
  · intro env actor assets mcpAgent now req hm hh h1 h2 h3
    rw [routerFetch_unfold, if_neg hm, if_neg hh, if_neg (by simp [h1]),
      if_neg (by simp [h2]), if_neg (by simp [h3])]

theorem router_mcp_unauthorized_witness :
    routerFetch envK actorK assetsK mcpK "t" mcpReqK = unauthorizedResponse [] :=
  (router_mcp_unauthorized.1 envK actorK assetsK mcpK "t" mcpReqK
    (by decide) (by decide) (by decide)).1

end Mahoraga
